import Mathlib

/-!
# Verification of the noise-debugging and Pauli-Lindblad noise-model core

A shallow embedding, in Lean 4, of the core of the `qiskit-ibm-runtime`
debugging/noise-visualization fork: the Clifford converter pass
(`transpiler/passes/basis/to_nearest_clifford.py`), the ratio figure of
merit and the `Debugger.compare` orchestrator (`debugger/plugins.py`,
`debugger/debugger.py`), the Pauli-Lindblad noise containers
(`utils/noise_learner_result.py`) and the layer-error map rendering
pipeline (`visualization/draw_layer_error.py`).

Python floats are modelled as rationals (`ℚ`): every arithmetic fact
proved here is exact, and none of the operations modelled perform a
division by a value that is zero at the call site, so the rational model
agrees with IEEE semantics on the inputs considered.  Python exceptions
are modelled with `Except String`.  Python `dict`s (which preserve
insertion order) are modelled as association lists.
-/

set_option autoImplicit false

namespace QiskitIbmRuntime

/-- A single-qubit Pauli operator; a Pauli string is a list of these. -/
inductive PauliOp where
  | I
  | X
  | Y
  | Z
deriving DecidableEq, Repr, Inhabited

/-- The weight of a Pauli string: the number of non-identity entries. -/
def pauliWeight (p : List PauliOp) : ℕ :=
  p.countP (fun o => o ≠ PauliOp.I)

/-- Container state of `LindbladErrors` (`utils/noise_learner_result.py`):
the Pauli generators, their rates, and the optional standard errors.
`paulis` models the `PauliList`, each entry being one Pauli string. -/
structure LindbladErrors where
  paulis : List (List PauliOp)
  rates : List ℚ
  rates_stderr : Option (List ℚ)
deriving DecidableEq, Repr

/-- Python truthiness of the optional `rates_stderr` sequence: `None` and
the empty sequence are falsy, a non-empty sequence is truthy. -/
def stderrTruthy : Option (List ℚ) → Bool
  | none => false
  | some l => !l.isEmpty

/-- `LindbladErrors.__init__`: raises `ValueError` when `len(paulis) !=
len(rates)`, and when `rates_stderr and len(rates) != len(rates_stderr)`.
The second guard uses Python truthiness: it fires only when
`rates_stderr` is not `None` *and* is non-empty. -/
def LindbladErrors.mk? (paulis : List (List PauliOp)) (rates : List ℚ)
    (rates_stderr : Option (List ℚ)) : Except String LindbladErrors :=
  if paulis.length ≠ rates.length then
    .error "``paulis`` and ``rates`` have different lengths."
  else if stderrTruthy rates_stderr ∧ rates.length ≠ (rates_stderr.getD []).length then
    .error "``rates_stderr`` and ``rates`` have different lengths."
  else
    .ok ⟨paulis, rates, rates_stderr⟩

/-- `LindbladErrors.num_qubits`, i.e. `paulis.num_qubits`: the width of
the Pauli strings (an empty `PauliList` still carries a width; for the
list model we take the width of the first string, `0` when empty). -/
def LindbladErrors.num_qubits (e : LindbladErrors) : ℕ :=
  (e.paulis.headD []).length

/-- The positions whose generator has weight `k`: the mask used by
`restrict_num_bodies`. -/
def restrictIdxs (e : LindbladErrors) (k : ℕ) : List ℕ :=
  (List.range e.paulis.length).filter
    (fun i => pauliWeight (e.paulis.getD i []) = k)

/-- Modelled from the spec: `restrict_num_bodies(k)` lives on the layer
error object consumed by `visualization/draw_layer_error.py` but its
definition is not part of the sources; the spec states it "filters the
generator/rate set to only those generators whose weight (number of
non-identity qubits) equals k" and "must preserve the stderr alignment
if present".  We keep the positions whose generator has weight `k` and
select those positions from all three arrays. -/
def LindbladErrors.restrict_num_bodies (e : LindbladErrors) (k : ℕ) : LindbladErrors :=
  { paulis := (restrictIdxs e k).map (fun i => e.paulis.getD i [])
    rates := (restrictIdxs e k).map (fun i => e.rates.getD i 0)
    rates_stderr := e.rates_stderr.map
      (fun s => (restrictIdxs e k).map (fun i => s.getD i 0)) }

/-- Python's two-argument `max` on numbers (the builtin used by the
rendering code to track the running maximum rate). -/
def pymax (a b : ℚ) : ℚ :=
  if a ≤ b then b else a

/-- The instruction set over which the Clifford converter pass operates
(`transpiler/passes/basis/to_nearest_clifford.py`).  Rotation angles are
measured in units of `π` and modelled as rationals, so `RZGate (3/8)`
is an RZ rotation by `3π/8`. -/
inductive Gate where
  | CXGate
  | CZGate
  | ECRGate
  | RZGate (phi : ℚ)
  | SXGate
  | XGate
  | OtherGate (name : String)
deriving DecidableEq, Repr, Inhabited

/-- Membership in `SUPPORTED_GATES = (CXGate, CZGate, ECRGate, RZGate,
SXGate, XGate)`. -/
def Gate.isSupported : Gate → Bool
  | .OtherGate _ => false
  | _ => true

/-- The class name of a gate, as used in the pass's error message. -/
def Gate.className : Gate → String
  | .CXGate => "CXGate"
  | .CZGate => "CZGate"
  | .ECRGate => "ECRGate"
  | .RZGate _ => "RZGate"
  | .SXGate => "SXGate"
  | .XGate => "XGate"
  | .OtherGate n => n

/-- A circuit (or its DAG, which carries the same op list): the number of
qubits and the sequence of gate operations. -/
structure QuantumCircuit where
  num_qubits : ℕ
  data : List Gate
deriving DecidableEq, Repr

/-- `ToNearestClifford.run`: iterates over the op nodes, raising a
`ValueError` at the first op outside `SUPPORTED_GATES`, and then returns
the dag unchanged — no op is rewritten. -/
def ToNearestClifford.run (dag : List Gate) : Except String (List Gate) :=
  match dag.find? (fun g => !g.isSupported) with
  | some g => .error ("Found gate ``" ++ g.className ++ "``, but only gates"
      ++ " [CXGate, CZGate, ECRGate, RZGate, SXGate, XGate] are supported.")
  | none => .ok dag

/-- Round-half-to-even on a rational (the behavior of `np.round` on the
exact value), used to express the documented conversion rule. -/
def roundHalfEven (q : ℚ) : ℤ :=
  if q - ⌊q⌋ < 1 / 2 then ⌊q⌋
  else if q - ⌊q⌋ > 1 / 2 then ⌊q⌋ + 1
  else if ⌊q⌋ % 2 = 0 then ⌊q⌋ else ⌊q⌋ + 1

/-- Modelled from the spec: the conversion `ToNearestClifford`'s own
docstring promises — "replaces every `RZGate` by angle `φ` with a
corresponding rotation by angle `φ'`, where `φ'` is the multiple of
`π/2` closest to `φ`" — with the spec's round-half-to-even tie-break.
Angles are in units of `π`, so the quarter-turn unit is `1/2`. -/
def nearestQuarterTurn (phi : ℚ) : ℚ :=
  (roundHalfEven (phi / (1 / 2)) : ℚ) * (1 / 2)

/-- Modelled from the spec: the rewriting step the docstring and the spec
describe for convert mode, applied gate-wise — every `RZGate` angle is
replaced by its nearest quarter-turn multiple, all other allowed gates
are left unchanged. -/
def documentedConvert (g : Gate) : Gate :=
  match g with
  | .RZGate phi => .RZGate (nearestQuarterTurn phi)
  | g => g

/-- State of `LayerNoise` (`utils/noise_learner_result.py`). -/
structure LayerNoise where
  circuit : QuantumCircuit
  qubits : List ℕ
  errors : LindbladErrors
deriving DecidableEq, Repr

/-- `LayerNoise.__init__`: raises `ValueError` when
`len({circuit.num_qubits, len(qubits), errors.num_qubits}) != 1`, i.e.
when the three qubit counts are not all equal; otherwise stores the
three arguments unchanged. -/
def LayerNoise.mk? (circuit : QuantumCircuit) (qubits : List ℕ)
    (errors : LindbladErrors) : Except String LayerNoise :=
  if ({circuit.num_qubits, qubits.length, errors.num_qubits} : Finset ℕ).card ≠ 1 then
    .error "Mistmatching numbers of qubits."
  else
    .ok ⟨circuit, qubits, errors⟩

/-- Free-form metadata, modelled as an association list of string keys. -/
def Metadata := List (String × String)
deriving DecidableEq, Repr, Inhabited

/-- State of `NoiseLearnerResult` (`utils/noise_learner_result.py`). -/
structure NoiseLearnerResult where
  data : List LayerNoise
  metadata : Metadata
deriving DecidableEq, Repr

/-- `NoiseLearnerResult.__init__`: evaluates `metadata.copy() or {}`.
When `metadata` is `None` (the declared default), `metadata.copy()`
raises `AttributeError` before the `or {}` fallback can apply; when
`metadata` is a dict, the copy succeeds, and the `or`-fallback replaces
an empty (falsy) copy by a fresh empty dict — in either case the stored
metadata equals the argument. -/
def NoiseLearnerResult.mk? (data : List LayerNoise) (metadata : Option Metadata) :
    Except String NoiseLearnerResult :=
  match metadata with
  | none => .error "AttributeError: NoneType object has no attribute copy"
  | some m => .ok ⟨data, if m.isEmpty then [] else m⟩

/-- The elementwise kernel of `np.divide(noisy, ideal,
out=np.zeros_like(noisy), where=ideal != 0)`: positions where the
divisor is zero keep the `0` from `out`, every other position holds the
exact quotient.  No division by zero is ever performed. -/
def npDivideWhere (noisy ideal : List ℚ) : List ℚ :=
  List.zipWith (fun n i => if i = 0 then 0 else n / i) noisy ideal

/-- `Ratio.call` (`debugger/plugins.py`): zips the two `PrimitiveResult`
containers pairwise and divides the expectation values of each pair with
the zero-substituting `np.divide` call.  A result container is modelled
as one list of expectation values per query. -/
def ratioCall (noisy_results ideal_results : List (List ℚ)) : List (List ℚ) :=
  List.zipWith npDivideWhere noisy_results ideal_results

/-- An estimator PUB after `EstimatorPub.coerce`: only the circuit is
relevant to the properties verified here; observables, parameter values
and precision belong to the opaque simulation boundary. -/
structure EstimatorPub where
  circuit : QuantumCircuit
deriving DecidableEq, Repr

instance : Inhabited EstimatorPub := ⟨⟨0, []⟩⟩

/-- An argument to `Debugger.compare`'s `result1`/`result2`: either a
string tag or an already-computed `PrimitiveResult` (modelled as one
list of expectation values per query). -/
inductive ResultArg where
  | tag (s : String)
  | res (r : List (List ℚ))
deriving DecidableEq, Repr

/-- The test applied by `compare`'s upfront check to each argument:
`isinstance(result, str) and result not in ["ideal_sim", "noisy_sim",
"exp"]`. -/
def ResultArg.invalidTag : ResultArg → Bool
  | .tag s => !(["ideal_sim", "noisy_sim", "exp"].contains s)
  | .res _ => false

/-- The upfront tag check of `Debugger.compare` (line 168-170): for each
of the two arguments, a string outside `["ideal_sim", "noisy_sim",
"exp"]` raises `ValueError` naming the value. -/
def validateResultArgs (args : List ResultArg) : Except String Unit :=
  match args.find? ResultArg.invalidTag with
  | some (.tag s) =>
      .error ("Invalid result '" ++ s ++ "', must be 'ideal_sim' or 'noisy_sim'.")
  | _ => .ok ()

/-- A comparison source that `_get_result` can resolve without raising:
an already-computed result set, or one of the two recognized simulation
tags. -/
def ResultArg.resolvable : ResultArg → Prop
  | .res _ => True
  | .tag s => s = "ideal_sim" ∨ s = "noisy_sim"

/-- The per-query result sets a resolvable source resolves to: a
supplied result set is used as-is (the code assumes, without checking,
that it corresponds to the same queries), and each recognized tag maps
the corresponding simulator over the pubs in order. -/
def resolvedResults (pubs : List EstimatorPub) (arg : ResultArg)
    (noisySim idealSim : EstimatorPub → List ℚ) : List (List ℚ) :=
  match arg with
  | .res r => r
  | .tag s =>
    if s = "ideal_sim" then pubs.map idealSim
    else if s = "noisy_sim" then pubs.map noisySim
    else []

/-- `_get_result` (`debugger/debugger.py`): an already-computed result is
returned as-is; the tag `ideal_sim` runs a noiseless stabilizer
simulation over the pubs, `noisy_sim` the same simulation with the noise
model injected; any other value raises the generic
`ValueError("Cannot retrieve the results.")`.  The two simulator
behaviors are the opaque simulation boundary, passed as functions from a
pub to its expectation values; the boolean records whether a simulation
was run. -/
def getResult (pubs : List EstimatorPub) (arg : ResultArg)
    (noisySim idealSim : EstimatorPub → List ℚ) :
    Except String (List (List ℚ) × Bool) :=
  match arg with
  | .res r => .ok (r, false)
  | .tag s =>
    if s = "ideal_sim" then .ok (pubs.map idealSim, true)
    else if s = "noisy_sim" then .ok (pubs.map noisySim, true)
    else .error "Cannot retrieve the results."

/-- `Debugger.compare`: validates the two result arguments' tags, then
validates the pubs (`_validate_pubs`, abstracted to the boolean
`pubsClifford` since the ISA/Clifford validators live outside these
sources), then resolves `result1` and `result2` in order via
`_get_result`, and finally applies the figure of merit.  The second
component of the returned pair counts how many simulations had been run
by the time the call returned or raised. -/
def Debugger.compare (pubs : List EstimatorPub) (pubsClifford : Bool)
    (result1 result2 : ResultArg)
    (fom : List (List ℚ) → List (List ℚ) → List (List ℚ))
    (noisySim idealSim : EstimatorPub → List ℚ) :
    Except String (List (List ℚ)) × ℕ :=
  match validateResultArgs [result1, result2] with
  | .error e => (.error e, 0)
  | .ok _ =>
    if !pubsClifford then
      (.error "Given ``pubs`` contain a non-Clifford circuit.", 0)
    else
      match getResult pubs result1 noisySim idealSim with
      | .error e => (.error e, 0)
      | .ok (r1, ran1) =>
        let n1 : ℕ := if ran1 then 1 else 0
        match getResult pubs result2 noisySim idealSim with
        | .error e => (.error e, n1)
        | .ok (r2, ran2) => (.ok (fom r1 r2), n1 + (if ran2 then 1 else 0))

/-- The layer error object consumed by `draw_layer_error_map`: the
physical qubit labels of the layer and its generator/rate data (the
drawing code reads `layer_error.qubits`, `error.generators` and
`error.rates`, which the `LindbladErrors` model carries as `paulis` and
`rates`). -/
structure LayerError where
  qubits : List ℕ
  error : LindbladErrors
deriving DecidableEq, Repr

/-- Ordered-dict update, as in Python: replace the value of an existing
key in place, append a fresh key at the end. -/
def dictInsert {α β : Type} [DecidableEq α] (d : List (α × β)) (k : α) (v : β) :
    List (α × β) :=
  if d.any (fun kv => kv.1 = k) then
    d.map (fun kv => if kv.1 = k then (k, v) else kv)
  else d ++ [(k, v)]

/-- Ordered-dict lookup. -/
def dictFind {α β : Type} [DecidableEq α] (d : List (α × β)) (k : α) : Option β :=
  (d.find? (fun kv => kv.1 = k)).map (fun kv => kv.2)

/-- The color decisions of the map renderer.  The rendering adapter that
produces actual RGB strings is outside the verified core; what is
verified is which of the three color classes each rate falls into, and
at which linear position an in-scale rate samples the colorscale. -/
inductive Color where
  | noData
  | outOfScale
  | inScale (v : ℚ)
deriving DecidableEq, Repr

/-- Modelled from the spec: `get_rgb_color` lives in
`visualization/utils.py`, which is not part of these sources; the spec
states that zero buckets get the reserved "no data" color, that rates
exceeding the normalization ceiling get the reserved "out of scale"
color, and that every other rate is mapped into the discretized
colorscale by linear position (kept abstract as `inScale`). -/
def get_rgb_color (val : ℚ) : Color :=
  if val > 1 then .outOfScale
  else if val = 0 then .noData
  else .inScale val

/-- Lines 96-102 of `draw_layer_error.py`: initialize `rates_1q` with an
empty bucket per layer qubit, then for each weight-1 generator find its
single active position (`np.where(pauli.x | pauli.z)[0][0]`), bucket the
rate under (physical qubit label, Pauli letter), and track the running
maximum rate (which line 93 had just reset to `0`, discarding the
`highest_rate` argument). -/
def buildRates1q (qubits : List ℕ) (error_1q : LindbladErrors) :
    List (ℕ × List (PauliOp × ℚ)) × ℚ :=
  (error_1q.paulis.zip error_1q.rates).foldl
    (fun acc pr =>
      let qubit_idx := pr.1.findIdx (fun o => o ≠ PauliOp.I)
      let key := qubits.getD qubit_idx 0
      let letter := pr.1.getD qubit_idx PauliOp.I
      let inner := (dictFind acc.1 key).getD []
      (dictInsert acc.1 key (dictInsert inner letter pr.2), pymax acc.2 pr.2))
    (qubits.map (fun q => (q, ([] : List (PauliOp × ℚ)))), (0 : ℚ))

deriving instance DecidableEq for Except

/-- The observable outcome of `draw_layer_error_map`: the normalization
ceiling actually used, the color of each of the three fixed pie wedges
(in the plotted order Z, X, Y) of each embedding qubit, and whether the
call completed or raised. -/
structure DrawOutcome where
  effectiveHighestRate : ℚ
  wedgeColors : List (List Color)
  outcome : Except String Unit
deriving DecidableEq, Repr

/-- The `rates_1q` dictionary of `draw_layer_error_map` after the 1-body
bucketing loop. -/
def drawRates1q (layer_error : LayerError) : List (ℕ × List (PauliOp × ℚ)) :=
  (buildRates1q layer_error.qubits (layer_error.error.restrict_num_bodies 1)).1

/-- The normalization ceiling `draw_layer_error_map` actually uses: line
93 rebinds `highest_rate = 0`, then the 1-body and 2-body loops track
the running maximum rate (line 113 `highest_rate = highest_rate if
highest_rate else highest_rate` is an identity), so the ceiling is the
data maximum regardless of the supplied argument. -/
def drawHighestRate (layer_error : LayerError) : ℚ :=
  ((layer_error.error.restrict_num_bodies 2).rates).foldl pymax
    (buildRates1q layer_error.qubits (layer_error.error.restrict_num_bodies 1)).2

/-- The wedge loop (lines 184-199): for every embedding qubit and each
of Z, X, Y (in plotted order), look up the bucketed rate (default `0`)
and color `rate / highest_rate`. -/
def wedgeColorsOf (rates_1q : List (ℕ × List (PauliOp × ℚ))) (highest : ℚ)
    (num_embedding_qubits : ℕ) : List (List Color) :=
  (List.range num_embedding_qubits).map (fun q =>
    [PauliOp.Z, PauliOp.X, PauliOp.Y].map (fun p =>
      get_rgb_color ((dictFind ((dictFind rates_1q q).getD []) p).getD 0 / highest)))

/-- `draw_layer_error_map` (`visualization/draw_layer_error.py`),
embedded up to the data/color computations.  The supplied `highest_rate`
argument is taken but — mirroring line 93 — never used: the ceiling is
`drawHighestRate`.  The wedge loop raises `ZeroDivisionError` when the
recomputed ceiling is `0` and at least one qubit is drawn; afterwards
the marker loop (lines 210-212) evaluates
`max(rates_1q[qubit].values())`, which raises `ValueError` for any layer
qubit whose bucket is empty.  The 2-body edge traces, hover texts and
figure assembly are plotting-adapter glue; the 2-body rates participate
here through the running maximum. -/
def draw_layer_error_map (layer_error : LayerError) (num_embedding_qubits : ℕ)
    (highest_rate : Option ℚ) : DrawOutcome :=
  let _ := highest_rate  -- line 93: ``highest_rate = 0`` shadows the argument
  let rates_1q := drawRates1q layer_error
  let highest := drawHighestRate layer_error
  if num_embedding_qubits ≠ 0 ∧ highest = 0 then
    { effectiveHighestRate := highest
      wedgeColors := []
      outcome := .error "ZeroDivisionError: division by zero" }
  else
    { effectiveHighestRate := highest
      wedgeColors := wedgeColorsOf rates_1q highest num_embedding_qubits
      outcome :=
        if rates_1q.any (fun kv => kv.2.isEmpty) then
          .error "ValueError: max() arg is an empty sequence"
        else .ok () }

/-! ## Helper lemmas -/

lemma getD_zipWith {α β γ : Type} (f : α → β → γ) (a : List α) (b : List β)
    (q : ℕ) (da : α) (db : β) (dc : γ) (ha : q < a.length) (hb : q < b.length) :
    (List.zipWith f a b).getD q dc = f (a.getD q da) (b.getD q db) := by
  induction a generalizing b q with
  | nil => simp at ha
  | cons x xs ih =>
    cases b with
    | nil => simp at hb
    | cons y ys =>
      cases q with
      | zero => rfl
      | succ n =>
        simp only [List.zipWith_cons_cons, List.getD_cons_succ]
        exact ih ys n (by simpa using ha) (by simpa using hb)

lemma zipWith_map_same {α β γ δ : Type} (f : β → γ → δ) (g : α → β) (h : α → γ)
    (l : List α) :
    List.zipWith f (l.map g) (l.map h) = l.map (fun a => f (g a) (h a)) := by
  induction l with
  | nil => rfl
  | cons x xs ih => simp [ih]

lemma getD_map {α β : Type} (f : α → β) (l : List α) (q : ℕ) (da : α)
    (ha : q < l.length) :
    (l.map f).getD q (f da) = f (l.getD q da) := by
  induction l generalizing q with
  | nil => simp at ha
  | cons x xs ih =>
    cases q with
    | zero => rfl
    | succ n =>
      simp only [List.map_cons, List.getD_cons_succ]
      exact ih n (by simpa using ha)

lemma getD_map_getElem {β : Type} (f : ℕ → β) (idxs : List ℕ) (i : ℕ)
    (hi : i < idxs.length) (d : β) :
    (idxs.map f).getD i d = f idxs[i] := by
  rw [List.getD_eq_getElem _ _ (by simpa using hi), List.getElem_map]

/-! ## C1 — the Clifford converter pass -/

/-- **C1.** The claim states that in convert mode the pass rewrites every
`RZGate` by angle `φ` to the rotation by the nearest multiple of `π/2`,
in particular `RZ(3π/8) ↦ RZ(π/2)`.  The code's `run` only validates and
returns the dag unchanged, contradicting both the claim and the pass's
own docstring: on the circuit `[RZ(3π/8)]` it returns `[RZ(3π/8)]`,
whereas the documented conversion yields `RZ(π/2)` and `3π/8 ≠ π/2`. -/
theorem toNearestClifford_run_leaves_rz_unconverted :
    ToNearestClifford.run [Gate.RZGate (3 / 8)] = Except.ok [Gate.RZGate (3 / 8)] ∧
    nearestQuarterTurn (3 / 8) = 1 / 2 ∧
    documentedConvert (Gate.RZGate (3 / 8)) = Gate.RZGate (1 / 2) ∧
    (3 / 8 : ℚ) ≠ 1 / 2 := by
  have hdiv : (3 / 8 : ℚ) / (1 / 2) = 3 / 4 := by norm_num
  have hf : ⌊(3 / 4 : ℚ)⌋ = 0 := by
    rw [Int.floor_eq_zero_iff]
    constructor <;> norm_num
  have hr : roundHalfEven (3 / 4) = 1 := by
    unfold roundHalfEven
    rw [hf]
    norm_num
  have hn : nearestQuarterTurn (3 / 8) = 1 / 2 := by
    unfold nearestQuarterTurn
    rw [hdiv, hr]
    norm_num
  refine ⟨rfl, hn, ?_, by norm_num⟩
  show Gate.RZGate (nearestQuarterTurn (3 / 8)) = Gate.RZGate (1 / 2)
  rw [hn]

/-! ## C2 — the ratio figure of merit -/

/-- **C2.** For every pair of aligned result sequences, `Ratio.call`
returns one output list per query, and its entry at every in-range
position is the quotient of the noisy expectation value by the ideal
one, except that positions where the ideal value is exactly `0` hold
exactly `0`.  The zero positions are filled from the `out` array of
zeros and no division is performed there, so no undefined value and no
exception can arise. -/
theorem ratioCall_spec (noisy ideal : List (List ℚ))
    (h : noisy.length = ideal.length) :
    (ratioCall noisy ideal).length = noisy.length ∧
    ∀ q j : ℕ, q < noisy.length →
      j < (noisy.getD q []).length → j < (ideal.getD q []).length →
      ((ratioCall noisy ideal).getD q []).getD j 0 =
        if (ideal.getD q []).getD j 0 = 0 then 0
        else (noisy.getD q []).getD j 0 / (ideal.getD q []).getD j 0 := by
  constructor
  · simp [ratioCall, h]
  · intro q j hq hj1 hj2
    have hq' : q < ideal.length := h ▸ hq
    have houter : (ratioCall noisy ideal).getD q [] =
        npDivideWhere (noisy.getD q []) (ideal.getD q []) :=
      getD_zipWith npDivideWhere noisy ideal q [] [] [] hq hq'
    rw [houter]
    exact getD_zipWith (fun n i => if i = 0 then 0 else n / i)
      (noisy.getD q []) (ideal.getD q []) j 0 0 0 hj1 hj2

/-- Witness for C2 at the concrete input `noisy = [[1, 2]]`,
`ideal = [[0, 4]]`: one query, divisor `0` at position `0` yields `0`,
position `1` yields the quotient `1/2`. -/
theorem ratioCall_spec_witness :
    ([[(1 : ℚ), 2]] : List (List ℚ)).length = [[(0 : ℚ), 4]].length ∧
    (ratioCall [[1, 2]] [[0, 4]]).length = 1 ∧
    ((ratioCall [[1, 2]] [[0, 4]]).getD 0 []).getD 0 0 = 0 ∧
    ((ratioCall [[1, 2]] [[0, 4]]).getD 0 []).getD 1 0 = 1 / 2 := by
  have h := ratioCall_spec [[1, 2]] [[0, 4]] (by decide)
  refine ⟨by decide, h.1, ?_, ?_⟩
  · have := h.2 0 0 (by decide) (by decide) (by decide)
    simpa using this
  · have := h.2 0 1 (by decide) (by decide) (by decide)
    rw [this]
    norm_num

/-! ## C4 — LindbladErrors construction -/

/-- **C4 counterexample.** The claim states that construction fails
whenever a `rates_stderr` sequence is supplied whose length differs from
the rate list.  Supplying the empty sequence (length `0`) together with
one rate (length `1`) succeeds, because the guard
`rates_stderr and len(rates) != len(rates_stderr)` short-circuits on the
falsy empty sequence. -/
theorem lindbladErrors_mk_mismatched_empty_stderr_ok :
    LindbladErrors.mk? [[PauliOp.X]] [1 / 10] (some []) =
      Except.ok ⟨[[PauliOp.X]], [1 / 10], some []⟩ ∧
    ([] : List ℚ).length ≠ [(1 : ℚ) / 10].length := by
  exact ⟨rfl, by decide⟩

/-- **C4 (amended).** Construction succeeds iff the generator and rate
lists have equal length and every *non-empty* supplied `rates_stderr`
has the length of the rate list (an empty `rates_stderr` is treated as
absent by the truthiness guard); this covers the all-empty case.  On
success the stored fields are the arguments, unchanged. -/
theorem lindbladErrors_mk_spec (paulis : List (List PauliOp)) (rates : List ℚ)
    (stderr : Option (List ℚ)) :
    ((∃ e, LindbladErrors.mk? paulis rates stderr = Except.ok e) ↔
      (paulis.length = rates.length ∧
        ∀ s, stderr = some s → s ≠ [] → s.length = rates.length)) ∧
    ∀ e, LindbladErrors.mk? paulis rates stderr = Except.ok e →
      e.paulis = paulis ∧ e.rates = rates ∧ e.rates_stderr = stderr := by
  constructor
  · constructor
    · rintro ⟨e, he⟩
      unfold LindbladErrors.mk? at he
      split at he
      · cases he
      · rename_i h1
        split at he
        · cases he
        · rename_i h2
          refine ⟨not_not.mp h1, fun s hs hne => ?_⟩
          subst hs
          by_contra hlen
          apply h2
          constructor
          · simp [stderrTruthy, List.isEmpty_iff, hne]
          · show rates.length ≠ s.length
            exact fun hh => hlen hh.symm
    · rintro ⟨h1, h2⟩
      unfold LindbladErrors.mk?
      rw [if_neg (by simpa using h1)]
      rcases stderr with _ | s
      · rw [if_neg (by simp [stderrTruthy])]
        exact ⟨_, rfl⟩
      · by_cases hs : s = []
        · subst hs
          rw [if_neg (by simp [stderrTruthy])]
          exact ⟨_, rfl⟩
        · have hlen := h2 s rfl hs
          rw [if_neg (by simp [stderrTruthy, hlen])]
          exact ⟨_, rfl⟩
  · intro e he
    unfold LindbladErrors.mk? at he
    split at he
    · cases he
    · split at he
      · cases he
      · cases he
        exact ⟨rfl, rfl, rfl⟩

/-- Witness for C4 (amended), applying the characterization at the
all-empty input (construction succeeds) and at a populated matched
input, and reading back the stored fields. -/
theorem lindbladErrors_mk_spec_witness :
    (∃ e, LindbladErrors.mk? [] [] (some []) = Except.ok e) ∧
    (∃ e, LindbladErrors.mk? [[PauliOp.Z]] [1 / 100] none = Except.ok e ∧
      e.rates = [1 / 100]) := by
  have h1 := lindbladErrors_mk_spec [] [] (some [])
  have h2 := lindbladErrors_mk_spec [[PauliOp.Z]] [1 / 100] none
  refine ⟨h1.1.mpr ⟨rfl, fun s hs hne => ?_⟩, ?_⟩
  · cases hs; exact absurd rfl hne
  · obtain ⟨e, he⟩ := h2.1.mpr ⟨rfl, fun s hs => by cases hs⟩
    exact ⟨e, he, (h2.2 e he).2.1⟩

/-! ## C10 — NoiseLearnerResult construction -/

/-- **C10.** Constructing `NoiseLearnerResult(data)` with `metadata`
omitted or `None` (the declared default) always raises, because
`metadata.copy()` is evaluated before the `or {}` fallback; with any
dict — the empty dict included — construction succeeds, and the stored
metadata equals the argument (the `or {}` fallback replaces an empty
copy by an equal empty dict). -/
theorem noiseLearnerResult_mk_spec (data : List LayerNoise) :
    NoiseLearnerResult.mk? data none =
      Except.error "AttributeError: NoneType object has no attribute copy" ∧
    ∀ m : Metadata, NoiseLearnerResult.mk? data (some m) = Except.ok ⟨data, m⟩ := by
  refine ⟨rfl, fun m => ?_⟩
  unfold NoiseLearnerResult.mk?
  rcases m with _ | ⟨kv, rest⟩
  · rfl
  · simp [List.isEmpty]

/-! ## C3 — restrict_num_bodies -/

/-- **C3.** For every `LindbladErrors` value and every `k`,
`restrict_num_bodies k` returns only generators of weight exactly `k`;
the returned generator, rate and (when present) stderr arrays have the
same length, and the entries at each output position all originate from
one common input position `j`, so the three arrays stay pairwise
aligned. -/
theorem restrict_num_bodies_spec (e : LindbladErrors) (k : ℕ) :
    (∀ p ∈ (e.restrict_num_bodies k).paulis, pauliWeight p = k) ∧
    (e.restrict_num_bodies k).paulis.length = (e.restrict_num_bodies k).rates.length ∧
    (∀ s, (e.restrict_num_bodies k).rates_stderr = some s →
      s.length = (e.restrict_num_bodies k).rates.length) ∧
    ∀ i, i < (e.restrict_num_bodies k).paulis.length →
      ∃ j, j < e.paulis.length ∧
        (e.restrict_num_bodies k).paulis.getD i [] = e.paulis.getD j [] ∧
        (e.restrict_num_bodies k).rates.getD i 0 = e.rates.getD j 0 ∧
        ∀ s s', e.rates_stderr = some s →
          (e.restrict_num_bodies k).rates_stderr = some s' →
          s'.getD i 0 = s.getD j 0 := by
  refine ⟨?_, ?_, ?_, ?_⟩
  · intro p hp
    simp only [LindbladErrors.restrict_num_bodies, List.mem_map] at hp
    obtain ⟨i, hi, rfl⟩ := hp
    have hi' : i ∈ (List.range e.paulis.length).filter
        (fun j => pauliWeight (e.paulis.getD j []) = k) := hi
    simpa using (List.mem_filter.mp hi').2
  · simp [LindbladErrors.restrict_num_bodies]
  · intro s hs
    simp only [LindbladErrors.restrict_num_bodies, Option.map_eq_some'] at hs
    obtain ⟨t, -, rfl⟩ := hs
    simp [LindbladErrors.restrict_num_bodies]
  · intro i hi
    have hi' : i < (restrictIdxs e k).length := by
      simpa [LindbladErrors.restrict_num_bodies] using hi
    have hmem : (restrictIdxs e k)[i] ∈ (List.range e.paulis.length).filter
        (fun j => pauliWeight (e.paulis.getD j []) = k) :=
      List.getElem_mem hi'
    have hrange : (restrictIdxs e k)[i] < e.paulis.length :=
      List.mem_range.mp (List.mem_filter.mp hmem).1
    refine ⟨(restrictIdxs e k)[i], hrange, ?_, ?_, ?_⟩
    · exact getD_map_getElem (fun j => e.paulis.getD j []) (restrictIdxs e k) i hi' []
    · exact getD_map_getElem (fun j => e.rates.getD j 0) (restrictIdxs e k) i hi' 0
    · intro s s' hs hs'
      have hmap : (e.restrict_num_bodies k).rates_stderr =
          some ((restrictIdxs e k).map (fun j => s.getD j 0)) := by
        simp [LindbladErrors.restrict_num_bodies, hs]
      rw [hmap] at hs'
      rw [← Option.some.inj hs']
      exact getD_map_getElem (fun j => s.getD j 0) (restrictIdxs e k) i hi' 0

/-! ## C5 — LayerNoise construction -/

lemma triple_card_one_iff (a b c : ℕ) :
    ({a, b, c} : Finset ℕ).card = 1 ↔ a = b ∧ b = c := by
  constructor
  · intro h
    rw [Finset.card_eq_one] at h
    obtain ⟨x, hx⟩ := h
    have ha : a ∈ ({a, b, c} : Finset ℕ) := by simp
    have hb : b ∈ ({a, b, c} : Finset ℕ) := by simp
    have hc : c ∈ ({a, b, c} : Finset ℕ) := by simp
    rw [hx, Finset.mem_singleton] at ha hb hc
    exact ⟨ha.trans hb.symm, hb.trans hc.symm⟩
  · rintro ⟨rfl, rfl⟩
    simp

/-- **C5.** `LayerNoise(circuit, qubits, errors)` succeeds iff the
circuit's qubit count, the number of qubit labels, and the generators'
qubit width all agree (the code tests that the set of the three counts
has exactly one element), and on success the three accessors return the
constructor arguments unchanged. -/
theorem layerNoise_mk_spec (c : QuantumCircuit) (q : List ℕ) (e : LindbladErrors) :
    ((∃ ln, LayerNoise.mk? c q e = Except.ok ln) ↔
      (c.num_qubits = q.length ∧ q.length = e.num_qubits)) ∧
    ∀ ln, LayerNoise.mk? c q e = Except.ok ln →
      ln.circuit = c ∧ ln.qubits = q ∧ ln.errors = e := by
  constructor
  · constructor
    · rintro ⟨ln, hln⟩
      unfold LayerNoise.mk? at hln
      split at hln
      · cases hln
      · rename_i hcard
        exact (triple_card_one_iff _ _ _).mp (not_not.mp hcard)
    · intro hcond
      unfold LayerNoise.mk?
      rw [if_neg (not_not.mpr ((triple_card_one_iff _ _ _).mpr hcond))]
      exact ⟨_, rfl⟩
  · intro ln hln
    unfold LayerNoise.mk? at hln
    split at hln
    · cases hln
    · cases hln
      exact ⟨rfl, rfl, rfl⟩

/-- Witness for C5: a concrete aligned triple (1-qubit circuit, one
label, width-1 generators) constructs successfully and the `qubits`
accessor returns the labels unchanged. -/
theorem layerNoise_mk_spec_witness :
    (∃ ln, LayerNoise.mk? ⟨1, []⟩ [5] ⟨[[PauliOp.Z]], [1 / 100], none⟩ = Except.ok ln) ∧
    ∀ ln, LayerNoise.mk? ⟨1, []⟩ [5] ⟨[[PauliOp.Z]], [1 / 100], none⟩ = Except.ok ln →
      ln.qubits = [5] := by
  have h := layerNoise_mk_spec ⟨1, []⟩ [5] ⟨[[PauliOp.Z]], [1 / 100], none⟩
  exact ⟨h.1.mpr ⟨by decide, by decide⟩, fun ln hln => (h.2 ln hln).2.1⟩

/-! ## C6 — compare's source-tag validation -/

/-- **C6.** The claim states that every string other than the two
recognized tags `ideal_sim` and `noisy_sim` fails `compare`'s upfront
validation, before any simulation, with a message naming the value.
The upfront check whitelists a third string, `"exp"`: it passes the
validation (first clause) even though a genuinely unknown tag is
rejected with a descriptive message (second clause); `compare` with
`result2 = "exp"` then runs the full simulation for `result1` and only
afterwards raises the generic `"Cannot retrieve the results."`, which
does not name the offending value (third clause). -/
theorem compare_exp_tag_escapes_validation :
    validateResultArgs [ResultArg.tag "exp"] = Except.ok () ∧
    validateResultArgs [ResultArg.tag "bogus"] =
      Except.error "Invalid result 'bogus', must be 'ideal_sim' or 'noisy_sim'." ∧
    Debugger.compare [default] true (ResultArg.tag "noisy_sim") (ResultArg.tag "exp")
        ratioCall (fun _ => [1]) (fun _ => [1]) =
      (Except.error "Cannot retrieve the results.", 1) := by
  exact ⟨rfl, rfl, rfl⟩

/-! ## C7 — the supplied normalization ceiling -/

/-- **C7.** The claim states that when `highest_rate` is supplied, every
rate exceeding it is rendered with the out-of-scale color and the
supplied ceiling normalizes all rates.  Line 93 of
`draw_layer_error.py` rebinds `highest_rate = 0` and recomputes the
maximum from the data, so on a layer with one `Z` rate `1/2` and a
supplied ceiling of `1/10`, the ceiling actually used is `1/2`, and the
`Z` wedge — whose rate exceeds the supplied ceiling — is colored in
scale at position `1`, not with the out-of-scale color. -/
theorem draw_layer_error_map_ignores_supplied_ceiling :
    (draw_layer_error_map ⟨[0], ⟨[[PauliOp.Z]], [1 / 2], none⟩⟩ 1
        (some (1 / 10))).effectiveHighestRate = 1 / 2 ∧
    (draw_layer_error_map ⟨[0], ⟨[[PauliOp.Z]], [1 / 2], none⟩⟩ 1
        (some (1 / 10))).wedgeColors =
      [[Color.inScale 1, Color.noData, Color.noData]] ∧
    ((1 : ℚ) / 2 > 1 / 10) := by
  have hh : drawHighestRate ⟨[0], ⟨[[PauliOp.Z]], [1 / 2], none⟩⟩ = 1 / 2 := by
    show pymax 0 (1 / 2) = 1 / 2
    norm_num [pymax]
  have hr : drawRates1q ⟨[0], ⟨[[PauliOp.Z]], [1 / 2], none⟩⟩ =
      [(0, [(PauliOp.Z, 1 / 2)])] := rfl
  have hc1 : get_rgb_color ((1 / 2 : ℚ) / (1 / 2)) = Color.inScale 1 := by
    norm_num [get_rgb_color]
  have hc0 : get_rgb_color ((0 : ℚ) / (1 / 2)) = Color.noData := by
    norm_num [get_rgb_color]
  have hw : wedgeColorsOf [(0, [(PauliOp.Z, 1 / 2)])] (1 / 2) 1 =
      [[Color.inScale 1, Color.noData, Color.noData]] := by
    show [[get_rgb_color ((1 / 2 : ℚ) / (1 / 2)), get_rgb_color ((0 : ℚ) / (1 / 2)),
      get_rgb_color ((0 : ℚ) / (1 / 2))]] =
      [[Color.inScale 1, Color.noData, Color.noData]]
    rw [hc1, hc0]
  refine ⟨?_, ?_, by norm_num⟩ <;>
  · simp only [draw_layer_error_map, hr, hh, hw]
    norm_num

/-! ## C8 — qubits with no 1-body data -/

/-- **C8.** The claim states that a qubit with no 1-body data is handled
without error, all three of its wedges getting the no-data color.  The
wedge loop indeed assigns the no-data color to all three wedges of such
a qubit (first clause, qubit `1`), but the marker-color loop that
follows evaluates `max(rates_1q[qubit].values())` on that qubit's empty
bucket, so the call raises `ValueError` instead of completing (second
clause). -/
theorem draw_layer_error_map_crashes_without_qubit_data :
    (draw_layer_error_map ⟨[0, 1], ⟨[[PauliOp.X, PauliOp.I]], [1 / 10], none⟩⟩ 2
        none).wedgeColors =
      [[Color.noData, Color.inScale 1, Color.noData],
       [Color.noData, Color.noData, Color.noData]] ∧
    (draw_layer_error_map ⟨[0, 1], ⟨[[PauliOp.X, PauliOp.I]], [1 / 10], none⟩⟩ 2
        none).outcome =
      Except.error "ValueError: max() arg is an empty sequence" := by
  have hh : drawHighestRate ⟨[0, 1], ⟨[[PauliOp.X, PauliOp.I]], [1 / 10], none⟩⟩ =
      1 / 10 := by
    show pymax 0 (1 / 10) = 1 / 10
    norm_num [pymax]
  have hr : drawRates1q ⟨[0, 1], ⟨[[PauliOp.X, PauliOp.I]], [1 / 10], none⟩⟩ =
      [(0, [(PauliOp.X, 1 / 10)]), (1, [])] := rfl
  have hc1 : get_rgb_color ((1 / 10 : ℚ) / (1 / 10)) = Color.inScale 1 := by
    norm_num [get_rgb_color]
  have hc0 : get_rgb_color ((0 : ℚ) / (1 / 10)) = Color.noData := by
    norm_num [get_rgb_color]
  have hw : wedgeColorsOf [(0, [(PauliOp.X, 1 / 10)]), (1, [])] (1 / 10) 2 =
      [[Color.noData, Color.inScale 1, Color.noData],
       [Color.noData, Color.noData, Color.noData]] := by
    show [[get_rgb_color ((0 : ℚ) / (1 / 10)), get_rgb_color ((1 / 10 : ℚ) / (1 / 10)),
      get_rgb_color ((0 : ℚ) / (1 / 10))],
      [get_rgb_color ((0 : ℚ) / (1 / 10)), get_rgb_color ((0 : ℚ) / (1 / 10)),
      get_rgb_color ((0 : ℚ) / (1 / 10))]] =
      [[Color.noData, Color.inScale 1, Color.noData],
       [Color.noData, Color.noData, Color.noData]]
    rw [hc1, hc0]
  refine ⟨?_, ?_⟩ <;>
  · simp only [draw_layer_error_map, hr, hh, hw]
    norm_num

/-! ## C9 — alignment of compare's outputs -/

lemma validateResultArgs_resolvable (a1 a2 : ResultArg)
    (h1 : a1.resolvable) (h2 : a2.resolvable) :
    validateResultArgs [a1, a2] = Except.ok () := by
  have hp : ∀ a : ResultArg, a.resolvable → ¬(a.invalidTag = true) := by
    intro a ha
    cases a with
    | res r => simp [ResultArg.invalidTag]
    | tag s => rcases ha with h | h <;> subst h <;> decide
  unfold validateResultArgs
  rw [List.find?_cons_of_neg _ (hp a1 h1), List.find?_cons_of_neg _ (hp a2 h2),
    List.find?_nil]

lemma getResult_resolvable (pubs : List EstimatorPub) (arg : ResultArg)
    (noisySim idealSim : EstimatorPub → List ℚ) (h : arg.resolvable) :
    ∃ b, getResult pubs arg noisySim idealSim =
      Except.ok (resolvedResults pubs arg noisySim idealSim, b) := by
  cases arg with
  | res r => exact ⟨false, rfl⟩
  | tag s => rcases h with h | h <;> subst h <;> exact ⟨true, rfl⟩

lemma resolvedResults_length (pubs : List EstimatorPub) (arg : ResultArg)
    (noisySim idealSim : EstimatorPub → List ℚ) (h : arg.resolvable)
    (ha : ∀ r, arg = ResultArg.res r → r.length = pubs.length) :
    (resolvedResults pubs arg noisySim idealSim).length = pubs.length := by
  cases arg with
  | res r => exact ha r rfl
  | tag s =>
    rcases h with h | h <;> subst h
    · show (pubs.map idealSim).length = pubs.length
      simp
    · show (pubs.map noisySim).length = pubs.length
      simp

/-- **C9.** For every batch of `n` pubs, every pair of resolvable
sources (a recognized simulation tag, in either role, or a supplied
result set with one entry per query), and every per-query figure of
merit (one that combines the two result sets pairwise by query, the
ratio being the reference instance), `compare` succeeds and returns a
result sequence of length `n` whose `i`-th entry is the figure of merit
of the `i`-th query's pair of results. -/
theorem compare_preserves_alignment (pubs : List EstimatorPub)
    (source1 source2 : ResultArg) (f : List ℚ → List ℚ → List ℚ)
    (noisySim idealSim : EstimatorPub → List ℚ)
    (h1 : source1.resolvable) (h2 : source2.resolvable)
    (ha1 : ∀ r, source1 = ResultArg.res r → r.length = pubs.length)
    (ha2 : ∀ r, source2 = ResultArg.res r → r.length = pubs.length) :
    ∃ res, (Debugger.compare pubs true source1 source2 (List.zipWith f)
        noisySim idealSim).1 = Except.ok res ∧
      res.length = pubs.length ∧
      ∀ i, i < pubs.length →
        res.getD i [] =
          f ((resolvedResults pubs source1 noisySim idealSim).getD i [])
            ((resolvedResults pubs source2 noisySim idealSim).getD i []) := by
  obtain ⟨b1, hg1⟩ := getResult_resolvable pubs source1 noisySim idealSim h1
  obtain ⟨b2, hg2⟩ := getResult_resolvable pubs source2 noisySim idealSim h2
  have hl1 := resolvedResults_length pubs source1 noisySim idealSim h1 ha1
  have hl2 := resolvedResults_length pubs source2 noisySim idealSim h2 ha2
  refine ⟨List.zipWith f (resolvedResults pubs source1 noisySim idealSim)
    (resolvedResults pubs source2 noisySim idealSim), ?_, ?_, ?_⟩
  · simp [Debugger.compare, validateResultArgs_resolvable source1 source2 h1 h2,
      hg1, hg2]
  · rw [List.length_zipWith, hl1, hl2, Nat.min_self]
  · intro i hi
    exact getD_zipWith f _ _ i [] [] [] (hl1 ▸ hi) (hl2 ▸ hi)

/-- Witness for C9: a batch of two pubs, once with the two simulation
tags (swapped relative to the defaults' roles being interchangeable)
and once with a supplied two-entry result set as the second source, each
yielding a result sequence of length 2 aligned to the inputs. -/
theorem compare_preserves_alignment_witness :
    (∃ res, (Debugger.compare [⟨⟨1, [Gate.XGate]⟩⟩, ⟨⟨1, []⟩⟩] true
        (ResultArg.tag "noisy_sim") (ResultArg.tag "ideal_sim") ratioCall
        (fun _ => [1 / 2]) (fun _ => [1])).1 = Except.ok res ∧
      res.length = 2) ∧
    (∃ res, (Debugger.compare [⟨⟨1, [Gate.XGate]⟩⟩, ⟨⟨1, []⟩⟩] true
        (ResultArg.tag "ideal_sim") (ResultArg.res [[4], [5]]) ratioCall
        (fun _ => [1 / 2]) (fun _ => [1])).1 = Except.ok res ∧
      res.length = 2) := by
  constructor
  · obtain ⟨res, hres, hlen, -⟩ := compare_preserves_alignment
      [⟨⟨1, [Gate.XGate]⟩⟩, ⟨⟨1, []⟩⟩] (ResultArg.tag "noisy_sim")
      (ResultArg.tag "ideal_sim") npDivideWhere (fun _ => [1 / 2]) (fun _ => [1])
      (Or.inr rfl) (Or.inl rfl) (fun r hr => by cases hr) (fun r hr => by cases hr)
    exact ⟨res, hres, hlen⟩
  · obtain ⟨res, hres, hlen, -⟩ := compare_preserves_alignment
      [⟨⟨1, [Gate.XGate]⟩⟩, ⟨⟨1, []⟩⟩] (ResultArg.tag "ideal_sim")
      (ResultArg.res [[4], [5]]) npDivideWhere (fun _ => [1 / 2]) (fun _ => [1])
      (Or.inl rfl) trivial (fun r hr => by cases hr)
      (fun r hr => by cases hr; rfl)
    exact ⟨res, hres, hlen⟩

end QiskitIbmRuntime
